import Mathlib

/-!
Verification of the DOM-automation core of the yt-gemini-vid-summarizer
browser extension: the element locator and validator
(`src/content-scripts/smart-waiter.js`), the action sequencer
(`src/content-scripts/action-sequencer.js`), and the video container /
menu button finder (video-automation module), together with the static
configuration tables (automation-config module) and the URL helper
`extractVideoId`.

The JavaScript is shallowly embedded: the live DOM is a flat list of
element records (tag, attributes, and the rendered state the code reads:
bounding box, computed style, textContent, innerHTML, offsetParent) with
a parent-index table; `querySelectorAll` is realised by a small CSS
engine covering exactly the selector features the repository's selector
strings use (tag, #id, .class, [attr], [attr="v"], [attr*="v"],
descendant combinator, comma groups); an unparsable selector models a
thrown `SyntaxError`.  Promise/timer behaviour is embedded as explicit
step functions on states.
-/

/-! ## String helpers (model of JS `toLowerCase`, `includes`, `join`) -/

/-- Lower-cases a string, modelling `String.prototype.toLowerCase`. -/
def lowerStr (s : String) : String := String.mk (s.toList.map Char.toLower)

/-- `leadMatch pat l` is true when `pat` occurs at the very start of `l`. -/
def leadMatch : List Char → List Char → Bool
  | [], _ => true
  | _ :: _, [] => false
  | a :: as, b :: bs => a == b && leadMatch as bs

/-- `subMatch pat l` is true when `pat` occurs contiguously anywhere in `l`,
modelling `String.prototype.includes`. -/
def subMatch : List Char → List Char → Bool
  | pat, [] => pat.isEmpty
  | pat, c :: rest => leadMatch pat (c :: rest) || subMatch pat rest

/-- `strContains hay sub` models `hay.includes(sub)`. -/
def strContains (hay sub : String) : Bool := subMatch sub.toList hay.toList

/-! ## DOM model

An element record carries the attributes plus the rendered state the source
reads through DOM APIs: `getBoundingClientRect()` (width/height), computed
style (`display`, `visibility`, `opacity`), the `disabled` property, the
`aria-*` attributes (in `attrs`), `textContent`, `innerHTML`, and whether
`offsetParent` is `null`.  A document is the flat pre-order listing of the
elements under `document.body` (index 0 is `body` itself) together with the
parent index of each element. -/

structure DElem where
  tag : String
  attrs : List (String × String) := []
  width : ℚ := 1
  height : ℚ := 1
  display : String := "block"
  visibility : String := "visible"
  opacity : String := "1"
  disabled : Bool := false
  text : String := ""
  innerHTML : String := ""
  offsetParentNull : Bool := false
deriving DecidableEq

structure Doc where
  elems : List DElem
  parents : List (Option ℕ)
deriving DecidableEq

/-- The element record at index `i`, if any. -/
def elemAt (doc : Doc) (i : ℕ) : Option DElem := doc.elems.get? i

/-- `getAttribute(k)` on element `i`. -/
def attrOf (doc : Doc) (i : ℕ) (k : String) : Option String :=
  match elemAt doc i with
  | some e => e.attrs.lookup k
  | none => none

/-- `tagName` of element `i` (stored as written in the document). -/
def tagOf (doc : Doc) (i : ℕ) : String :=
  match elemAt doc i with
  | some e => e.tag
  | none => ""

/-- `parentElement` of element `i`. -/
def parentOf (doc : Doc) (i : ℕ) : Option ℕ := (doc.parents.get? i).getD none

/-- The chain of ancestors of `i` (nearest first), computed with fuel
`doc.elems.length` so the function is total on arbitrary parent tables. -/
def ancListAux (doc : Doc) : ℕ → Option ℕ → List ℕ
  | 0, _ => []
  | _, none => []
  | fuel + 1, some i => i :: ancListAux doc fuel (parentOf doc i)

/-- All strict ancestors of element `i`, nearest first. -/
def ancList (doc : Doc) (i : ℕ) : List ℕ :=
  ancListAux doc doc.elems.length (parentOf doc i)

/-- `i` lies strictly inside the subtree of `scope`. -/
def isDescOf (doc : Doc) (i scope : ℕ) : Bool := (ancList doc i).contains scope

/-! ## CSS selector mini-engine

Covers exactly the selector features appearing in the repository's selector
strings: type selectors, `#id`, `.class`, `[attr]`, `[attr="v"]`,
`[attr*="v"]`, compounds, the descendant combinator (space) and comma
groups.  `parseSelector` returns `none` for anything else, modelling the
`SyntaxError` thrown by `querySelectorAll` on a malformed selector. -/

inductive SSel where
  | tagS (t : String)
  | idS (v : String)
  | clsS (v : String)
  | attrPres (k : String)
  | attrEq (k v : String)
  | attrSub (k v : String)
deriving DecidableEq

/-- Characters allowed in tag names, identifiers, class names, attribute
keys in the repository's selectors. -/
def selIdentChar (c : Char) : Bool := c.isAlpha || c.isDigit || c == '-' || c == '_'

/-- Parses the body of a `[...]` attribute selector (after the opening
bracket), returning the parsed simple selector and the rest of the input. -/
def parseAttrBody (s : List Char) : Option (SSel × List Char) :=
  let key := s.takeWhile selIdentChar
  let rest := s.dropWhile selIdentChar
  if key.isEmpty then none else
  match rest with
  | ']' :: r => some (.attrPres (String.mk key), r)
  | '*' :: '=' :: '"' :: r =>
      let v := r.takeWhile (fun c => !(c == '"'))
      (match r.dropWhile (fun c => !(c == '"')) with
       | '"' :: ']' :: r2 => some (.attrSub (String.mk key) (String.mk v), r2)
       | _ => none)
  | '=' :: '"' :: r =>
      let v := r.takeWhile (fun c => !(c == '"'))
      (match r.dropWhile (fun c => !(c == '"')) with
       | '"' :: ']' :: r2 => some (.attrEq (String.mk key) (String.mk v), r2)
       | _ => none)
  | _ => none

/-- Parses one compound selector (a run of simple selectors with no
combinator), with fuel for termination. -/
def parseCompoundAux : ℕ → List Char → Option (List SSel)
  | 0, _ => none
  | _, [] => some []
  | fuel + 1, s =>
    match s with
    | [] => some []
    | '#' :: r =>
        let v := r.takeWhile selIdentChar
        if v.isEmpty then none
        else (parseCompoundAux fuel (r.dropWhile selIdentChar)).map
          (fun l => SSel.idS (String.mk v) :: l)
    | '.' :: r =>
        let v := r.takeWhile selIdentChar
        if v.isEmpty then none
        else (parseCompoundAux fuel (r.dropWhile selIdentChar)).map
          (fun l => SSel.clsS (String.mk v) :: l)
    | '[' :: r =>
        (match parseAttrBody r with
         | some (sel, r2) => (parseCompoundAux fuel r2).map (fun l => sel :: l)
         | none => none)
    | c :: _ =>
        if selIdentChar c then
          let v := s.takeWhile selIdentChar
          (parseCompoundAux fuel (s.dropWhile selIdentChar)).map
            (fun l => SSel.tagS (String.mk v) :: l)
        else none

/-- Splits a character list at occurrences of `brk` that sit outside
`[...]` bracket pairs (so quoted attribute values survive splitting). -/
def splitTopAux (brk : Char) : List Char → ℕ → List Char → List (List Char)
  | [], _, cur => [cur.reverse]
  | c :: rest, depth, cur =>
    if c == brk && depth == 0 then cur.reverse :: splitTopAux brk rest 0 []
    else splitTopAux brk rest
      (if c == '[' then depth + 1 else if c == ']' then depth - 1 else depth)
      (c :: cur)

def splitTop (brk : Char) (s : List Char) : List (List Char) := splitTopAux brk s 0 []

/-- Parses one compound chunk; fails on an empty chunk. -/
def parseChain (chunk : List Char) : Option (List SSel) :=
  if chunk.isEmpty then none else
  match parseCompoundAux (chunk.length + 1) chunk with
  | some [] => none
  | some l => some l
  | none => none

/-- Parses one comma-group: a descendant chain of compounds. -/
def parseGroup (g : List Char) : Option (List (List SSel)) :=
  let chunks := (splitTop ' ' g).filter (fun c => !c.isEmpty)
  if chunks.isEmpty then none else chunks.mapM parseChain

/-- Parses a full selector string into comma-groups of descendant chains;
`none` models the `SyntaxError` of an invalid selector. -/
def parseSelector (s : String) : Option (List (List (List SSel))) :=
  (splitTop ',' s.toList).mapM parseGroup

/-- Whitespace-split of a `class` attribute value. -/
def splitWS (s : String) : List String :=
  ((splitTop ' ' s.toList).filter (fun c => !c.isEmpty)).map String.mk

/-- One simple selector matched against element `i`. -/
def matchSimple (doc : Doc) (i : ℕ) : SSel → Bool
  | .tagS t => lowerStr (tagOf doc i) == lowerStr t
  | .idS v => attrOf doc i "id" == some v
  | .clsS v => (splitWS ((attrOf doc i "class").getD "")).contains v
  | .attrPres k => (attrOf doc i k).isSome
  | .attrEq k v => attrOf doc i k == some v
  | .attrSub k v =>
      !(v == "") &&
      (match attrOf doc i k with
       | some a => strContains a v
       | none => false)

/-- A compound selector matched against element `i`. -/
def matchCompound (doc : Doc) (i : ℕ) (c : List SSel) : Bool :=
  c.all (matchSimple doc i)

/-- A descendant chain, given reversed (subject compound first), matched at
element `i`: the subject matches `i` and each further compound matches some
strictly higher ancestor, in order. -/
def chainHolds (doc : Doc) : List (List SSel) → ℕ → Bool
  | [], _ => false
  | [c], i => matchCompound doc i c
  | c :: rest, i =>
      matchCompound doc i c && (ancList doc i).any (fun a => chainHolds doc rest a)

/-- A parsed selector (comma-groups) matched at element `i`. -/
def matchesGroups (doc : Doc) (groups : List (List (List SSel))) (i : ℕ) : Bool :=
  groups.any (fun g => chainHolds doc g.reverse i)

/-- `scope.querySelectorAll(sel)`: all elements of the document matching
`sel` that lie strictly inside `scope`, in document order; `none` models a
thrown `SyntaxError` for a malformed selector.  Matching is against the
whole document (ancestor parts of a chain may match above `scope`), as in
the browser. -/
def querySelectorAll (doc : Doc) (scope : ℕ) (sel : String) : Option (List ℕ) :=
  (parseSelector sel).map fun groups =>
    (List.range doc.elems.length).filter fun i =>
      isDescOf doc i scope && matchesGroups doc groups i

/-! ## JavaScript values and the smart-waiter configuration

`waitForElement` builds its effective config (smart-waiter.js lines 17-24)
with JavaScript truthiness: `options.timeout || default`,
`options.validateVisibility !== false`, `options.validateInteractable ||
false`, `options.maxRetries || default`.  `JSVal` captures the JS values a
caller may put in the boolean option slots; numeric slots are modelled as
`Option ℚ` / `Option ℕ` (absent or a number, as the callers type them). -/

inductive JSVal where
  | undef
  | nullv
  | boolv (b : Bool)
  | numv (q : ℚ)
  | strv (s : String)
deriving DecidableEq

/-- JavaScript truthiness of a `JSVal` (NaN is not modelled). -/
def JSVal.truthy : JSVal → Bool
  | .undef => false
  | .nullv => false
  | .boolv b => b
  | .numv q => decide (q ≠ 0)
  | .strv s => decide (s ≠ "")

/-- `x || d` for an optionally-present numeric property: an absent or zero
(falsy) value yields the default. -/
def jsOrQ (x : Option ℚ) (d : ℚ) : ℚ :=
  match x with
  | none => d
  | some v => if v = 0 then d else v

/-- `x || d` for an optionally-present natural-number property. -/
def jsOrN (x : Option ℕ) (d : ℕ) : ℕ :=
  match x with
  | none => d
  | some v => if v = 0 then d else v

/-- The `options` object passed to `waitForElement`.  A `none` / `.undef`
field is an absent property. -/
structure WaitOptions where
  timeout : Option ℚ := none
  validateVisibility : JSVal := .undef
  validateInteractable : JSVal := .undef
  retryCount : Option ℕ := none
  maxRetries : Option ℕ := none
  textPattern : Option (List String) := none
deriving DecidableEq

/-- The global `AUTOMATION_CONFIG.timeouts` table as the waiter reads it:
`none` models an absent `window.AutomationConfig` (the optional chain
yields `undefined`). -/
structure GlobalTimeouts where
  elementWait : Option ℚ := none
  maxRetries : Option ℕ := none
deriving DecidableEq

/-- The concrete `AUTOMATION_CONFIG.timeouts` of the automation-config
module: `elementWait: 5000`, `maxRetries: 3`. -/
def automationTimeouts : GlobalTimeouts := { elementWait := some 5000, maxRetries := some 3 }

/-- The effective config a `waitForElement` call works with. -/
structure WaitConfig where
  timeout : ℚ
  validateVisibility : Bool
  validateInteractable : Bool
  retryCount : ℕ
  maxRetries : ℕ
  textPattern : Option (List String)
deriving DecidableEq

/-- smart-waiter.js lines 17-24: builds the effective config from `options`
and the global configuration. -/
def effectiveWaitConfig (options : WaitOptions) (g : GlobalTimeouts) : WaitConfig where
  timeout := jsOrQ options.timeout (jsOrQ g.elementWait 5000)
  validateVisibility := !(options.validateVisibility == JSVal.boolv false)
  validateInteractable := (options.validateInteractable).truthy
  retryCount := jsOrN options.retryCount 0
  maxRetries := jsOrN options.maxRetries (jsOrN g.maxRetries 3)
  textPattern := options.textPattern

/-! ## validateElement and findBestElement (smart-waiter.js lines 114-171) -/

/-- smart-waiter.js `validateElement`: `none` is a null element (rejected);
then the visibility, interactability and text-pattern checks in source
order, each gated by its config flag. -/
def validateElement (doc : Doc) (oi : Option ℕ) (cfg : WaitConfig) : Bool :=
  match oi with
  | none => false
  | some i =>
    match elemAt doc i with
    | none => false
    | some e =>
      if cfg.validateVisibility &&
         (e.width == 0 || e.height == 0 || e.display == "none" ||
          e.visibility == "hidden" || e.opacity == "0")
      then false
      else if cfg.validateInteractable &&
              (e.disabled || e.attrs.lookup "aria-disabled" == some "true")
      then false
      else
        match cfg.textPattern with
        | none => true
        | some pats => pats.any fun p => strContains (lowerStr e.text) (lowerStr p)

/-- smart-waiter.js `findBestElement`: tries each selector in order; a
malformed selector (query `SyntaxError`) is caught and the search continues;
within one selector's matches, the first element passing `validateElement`
is returned. -/
def findBestElement (doc : Doc) (selectors : List String) (cfg : WaitConfig) : Option ℕ :=
  match selectors with
  | [] => none
  | sel :: rest =>
    match querySelectorAll doc 0 sel with
    | none => findBestElement doc rest cfg
    | some els =>
      match els.find? (fun i => validateElement doc (some i) cfg) with
      | some i => some i
      | none => findBestElement doc rest cfg

/-- The candidate stream the specification describes: all matches of each
selector in selector-list order then document order (a malformed selector
contributes nothing). -/
def candidateStream (doc : Doc) (selectors : List String) : List ℕ :=
  (selectors.map fun s => (querySelectorAll doc 0 s).getD []).flatten

/-- The visibility check of `validateElement`, as a standalone predicate. -/
def visiblePass (e : DElem) : Bool :=
  !(e.width == 0 || e.height == 0 || e.display == "none" ||
    e.visibility == "hidden" || e.opacity == "0")

/-- The interactability check of `validateElement`, standalone. -/
def interactPass (e : DElem) : Bool :=
  !(e.disabled || e.attrs.lookup "aria-disabled" == some "true")

/-- The text-pattern check of `validateElement`, standalone. -/
def textPass (e : DElem) : Option (List String) → Bool
  | none => true
  | some pats => pats.any fun p => strContains (lowerStr e.text) (lowerStr p)

/-! ## One `waitForElement` attempt as a transition system
(smart-waiter.js lines 28-105)

After the immediate check misses, the promise executor arms a timeout
timer, a MutationObserver, and a polling timer (with the default strategy
flags both mechanisms are enabled).  The event loop then delivers three
kinds of callbacks; each one re-runs the locator (its success is the
`found` flag of the event).  `settles` counts calls that settle the
attempt: `resolve(element)` from the observer or the poll, and the timeout
body (which either chains into a retry or rejects - either way the
attempt's own promise is settled by that call). -/

structure WaiterState where
  resolved : Bool
  timeoutPending : Bool
  observerActive : Bool
  pollPending : Bool
  settles : ℕ
deriving DecidableEq

inductive WEvent where
  | mutation (found : Bool)
  | pollTimer (found : Bool)
  | timeoutTimer
deriving DecidableEq

/-- The effect of one event-loop callback, transcribed from the three
callbacks of smart-waiter.js: the observer callback (lines 66-76), the
`poll` closure (lines 89-101), and the timeout callback (lines 39-60).
A mechanism that has been cancelled (observer disconnected, timer cleared
or never scheduled) cannot fire, hence the guards. -/
def wStep (s : WaiterState) : WEvent → WaiterState
  | .mutation found =>
    if !s.observerActive then s
    else if s.resolved then s
    else if found then
      { s with resolved := true, timeoutPending := false,
               observerActive := false, settles := s.settles + 1 }
    else s
  | .pollTimer found =>
    if !s.pollPending then s
    else if s.resolved then { s with pollPending := false }
    else if found then
      { s with resolved := true, timeoutPending := false,
               observerActive := false, pollPending := false,
               settles := s.settles + 1 }
    else s
  | .timeoutTimer =>
    if !s.timeoutPending then s
    else if s.resolved then { s with timeoutPending := false }
    else
      { s with resolved := true, timeoutPending := false,
               observerActive := false, settles := s.settles + 1 }

/-- The state right after the executor has armed all three mechanisms. -/
def wInit : WaiterState :=
  { resolved := false, timeoutPending := true, observerActive := true,
    pollPending := true, settles := 0 }

/-- Runs a sequence of event-loop callbacks from the armed state. -/
def wRun (events : List WEvent) : WaiterState := events.foldl wStep wInit

/-! ## Start of a `waitForElement` call (smart-waiter.js lines 28-36)

The executor first runs the locator synchronously; on a hit it resolves at
once and returns before any timer or observer is created. -/

inductive WaitStart where
  | immediate (e : ℕ)
  | pending (s : WaiterState)
deriving DecidableEq

/-- Lines 31-36 followed by lines 39-104: immediate resolution on a
locator hit, otherwise the fully armed waiting state. -/
def waitAttemptStart (doc : Doc) (selectors : List String) (cfg : WaitConfig) : WaitStart :=
  match findBestElement doc selectors cfg with
  | some e => .immediate e
  | none => .pending wInit

/-! ## The retry chain when no element ever appears
(smart-waiter.js lines 44-58)

Each attempt ends in the timeout callback; while `retryCount < maxRetries`
it recurses with `retryCount + 1` and `timeout = min(timeout * 1.5, 10000)`,
otherwise it rejects.  `waitFailChain` collects the `(retryCount, timeout)`
of every attempt, in order, and the final rejection message. -/

/-- `Math.min(timeout * 1.5, 10000)`. -/
def nextTimeout (t : ℚ) : ℚ := min (t * (3 / 2)) 10000

/-- `selectorArray.join(', ')`. -/
def joinSelectors (selectors : List String) : String := String.intercalate ", " selectors

/-- The per-attempt `(retryCount, timeout)` pairs and the rejection message
of the failure-path recursion, with fuel (the wrapper supplies enough). -/
def failChainAux (selectors : List String) (maxRetries : ℕ) :
    ℕ → ℕ → ℚ → List (ℕ × ℚ) × String
  | 0, _, _ => ([], "")
  | fuel + 1, retryCount, t =>
    if retryCount < maxRetries then
      let rest := failChainAux selectors maxRetries fuel (retryCount + 1) (nextTimeout t)
      ((retryCount, t) :: rest.1, rest.2)
    else
      ([(retryCount, t)],
       "Element not found after " ++ toString maxRetries ++ " attempts: " ++
         joinSelectors selectors)

/-- The whole failure chain of a `waitForElement` call that starts at
`retryCount = 0` with effective timeout `t` and never finds an element. -/
def waitFailChain (selectors : List String) (maxRetries : ℕ) (t : ℚ) :
    List (ℕ × ℚ) × String :=
  failChainAux selectors maxRetries (maxRetries + 1) 0 t

/-! ## The action sequencer (action-sequencer.js lines 16-62) -/

/-- One automation step, as `executeSequence` sees it.  `required` is the
raw JS property (`undef` when absent); `outcome` abstracts the body of the
`try` block (waiting, the settle delay, the action): `none` when it
completes, `some m` when it throws an error whose `.message` is `m`. -/
structure SeqStep where
  name : String
  required : JSVal := .undef
  outcome : Option String := none
deriving DecidableEq

inductive SeqOutcome where
  | success
  | failure (msg : String)
deriving DecidableEq

/-- `step.required !== false`. -/
def stepRequired (st : SeqStep) : Bool := !(st.required == JSVal.boolv false)

/-- A step whose failure aborts the sequence. -/
def stepAborts (st : SeqStep) : Bool := st.outcome.isSome && stepRequired st

/-- The wrapped error thrown for a failed required step (line 53). -/
def wrapStepError (st : SeqStep) : String :=
  "Required step failed: " ++ st.name ++ " - " ++ (st.outcome.getD "")

/-- action-sequencer.js `executeSequence`: returns the names of the steps
that were attempted, in order, and the outcome (`success` models the
promise resolving `true`; `failure m` the wrapped abort error).  A step
that throws is caught; if `required !== false` the wrapped error aborts,
otherwise the step is skipped and the loop continues. -/
def executeSequence : List SeqStep → List String × SeqOutcome
  | [] => ([], .success)
  | st :: rest =>
    match st.outcome with
    | none =>
      let r := executeSequence rest
      (st.name :: r.1, r.2)
    | some _ =>
      if stepRequired st then ([st.name], .failure (wrapStepError st))
      else
        let r := executeSequence rest
        (st.name :: r.1, r.2)

/-! ## `extractVideoId` (URL utilities)

The five regexes are each "leftmost occurrence of a literal prefix, then
capture greedily until a stop character"; a pattern whose capture is empty
is falsy (`match && match[1]`) and the next pattern is tried. -/

/-- Finds the leftmost position where one of `pres` occurs and returns the
following characters up to (excluding) the first stop character. -/
def captureAfterAny (pres : List (List Char)) (stops : List Char) : List Char → Option (List Char)
  | [] => none
  | c :: rest =>
    match pres.find? (fun p => leadMatch p (c :: rest)) with
    | some p => some (((c :: rest).drop p.length).takeWhile (fun ch => !(stops.contains ch)))
    | none => captureAfterAny pres stops rest

/-- URL-utils `extractVideoId`: `none` models a `null` (or falsy empty)
URL and a `null` result. -/
def extractVideoId : Option String → Option String
  | none => none
  | some url =>
    if url == "" then none
    else
      let s := url.toList
      let patterns : List (List (List Char) × List Char) := [
        (["?v=".toList, "&v=".toList], "&#".toList),
        (["/watch?v=".toList], "&#".toList),
        (["/embed/".toList], "?&#".toList),
        (["/v/".toList], "?&#".toList),
        (["youtu.be/".toList], "?&#".toList)]
      patterns.findSome? fun pr =>
        match captureAfterAny pr.1 pr.2 s with
        | some cap => if cap.isEmpty then none else some (String.mk cap)
        | none => none

/-! ## Video container search (video-automation module, part_001 lines 43-194)

The selectors this code builds at runtime embed `videoId` into a fixed
shape (`ct[data-video-id="id"]`, `a[href*="pat"]`); they are modelled by
the matching semantics of the corresponding parsed simple selectors
(`matchSimple`), i.e. assuming a video id free of CSS metacharacters. -/

/-- `CONTAINER_TYPES` of the automation-config module (also the literal
fallback list in `findVideoElementById`). -/
def containerTypes : List String := [
  "ytd-compact-video-renderer",
  "ytd-video-renderer",
  "ytd-grid-video-renderer",
  "ytd-rich-item-renderer",
  "ytd-playlist-video-renderer",
  "ytd-reel-item-renderer"]

/-- All document elements matching a conjunction of simple selectors, in
document order (semantic form of `document.querySelectorAll`). -/
def docQuery (doc : Doc) (sels : List SSel) : List ℕ :=
  (List.range doc.elems.length).filter fun i =>
    isDescOf doc i 0 && sels.all (matchSimple doc i)

/-- `validateVideoContainer`: the `data-video-id` attribute equals the id
(`getAttribute` and `dataset.videoId` read the same attribute), or some
anchor inside the container has an href containing the id. -/
def validateVideoContainer (doc : Doc) (c : ℕ) (videoId : String) : Bool :=
  match elemAt doc c with
  | none => false
  | some _ =>
    attrOf doc c "data-video-id" == some videoId ||
    (List.range doc.elems.length).any fun i =>
      isDescOf doc i c && matchSimple doc i (.tagS "a") &&
      matchSimple doc i (.attrSub "href" videoId)

/-- `containerContainsVideo`: an `a[href]` inside the container whose href
extracts to the id, or an element with a matching `data-video-id` or
`data-href` attribute. -/
def containerContainsVideo (doc : Doc) (c : ℕ) (videoId : String) : Bool :=
  ((List.range doc.elems.length).any fun i =>
      isDescOf doc i c && matchSimple doc i (.tagS "a") &&
      matchSimple doc i (.attrPres "href") &&
      extractVideoId (attrOf doc i "href") == some videoId) ||
  ((List.range doc.elems.length).any fun i =>
      isDescOf doc i c &&
      ((attrOf doc i "data-video-id").isSome || (attrOf doc i "data-href").isSome) &&
      (attrOf doc i "data-video-id" == some videoId ||
       (match attrOf doc i "data-href" with
        | some dh => !(dh == "") && extractVideoId (some dh) == some videoId
        | none => false)))

/-- `findParentContainer`'s loop: walks `parentElement` links starting at
the element itself, at most 15 nodes, stopping at `document.body`
(index 0) or a detached node, and returns the first node whose lower-cased
tag is one of the container types. -/
def findParentContainerGo (doc : Doc) (types : List String) : ℕ → Option ℕ → Option ℕ
  | 0, _ => none
  | _, none => none
  | fuel + 1, some i =>
    if i == 0 then none
    else if types.any (fun t => lowerStr (tagOf doc i) == t) then some i
    else findParentContainerGo doc types fuel (parentOf doc i)

/-- part_001 lines 131-145 (`maxDepth = 15`). -/
def findParentContainer (doc : Doc) (i : ℕ) (types : List String) : Option ℕ :=
  findParentContainerGo doc types 15 (some i)

/-- Strategy 1: direct `data-video-id` attribute match per container type,
validated. -/
def videoStrategy1 (doc : Doc) (videoId : String) : Option ℕ :=
  containerTypes.findSome? fun ct =>
    (docQuery doc [.tagS ct, .attrEq "data-video-id" videoId]).find?
      (fun i => validateVideoContainer doc i videoId)

/-- The four href patterns of strategy 2, in source order. -/
def linkPatterns (videoId : String) : List String :=
  ["watch?v=" ++ videoId, "watch/" ++ videoId, "/v/" ++ videoId, "youtu.be/" ++ videoId]

/-- Strategy 2: find anchors whose href contains one of the patterns, walk
up to a known container, validate. -/
def videoStrategy2 (doc : Doc) (videoId : String) : Option ℕ :=
  (linkPatterns videoId).findSome? fun pat =>
    (docQuery doc [.tagS "a", .attrSub "href" pat]).findSome? fun link =>
      match findParentContainer doc link containerTypes with
      | some c => if validateVideoContainer doc c videoId then some c else none
      | none => none

/-- Strategy 3: scan every instance of every container type for content
that resolves to the id. -/
def videoStrategy3 (doc : Doc) (videoId : String) : Option ℕ :=
  containerTypes.findSome? fun ct =>
    (docQuery doc [.tagS ct]).find? (fun c => containerContainsVideo doc c videoId)

/-- part_001 lines 110-119: run the strategies in order inside
`try`/`catch`; a throwing or empty-handed strategy falls through to the
next one. -/
def runStrategies : List (Except String (Option ℕ)) → Option ℕ
  | [] => none
  | .error _ :: rest => runStrategies rest
  | .ok none :: rest => runStrategies rest
  | .ok (some e) :: _ => some e

/-- `findVideoElementById` (part_001 lines 43-123).  In the model the three
strategies are total, so the `catch` branch of the runner is never taken
for them. -/
def findVideoElementById (doc : Doc) (videoId : String) : Option ℕ :=
  runStrategies [
    .ok (videoStrategy1 doc videoId),
    .ok (videoStrategy2 doc videoId),
    .ok (videoStrategy3 doc videoId)]

/-! ## Menu button search (video-automation module, part_001 lines 201-312) -/

/-- `MENU_SELECTORS_BY_TYPE` of the automation-config module. -/
def menuSelectorsByType : List (String × List String) := [
  ("ytd-compact-video-renderer", [
    "#menu yt-icon-button button",
    "ytd-menu-renderer yt-icon-button button",
    ".dropdown-trigger button",
    "yt-icon-button.dropdown-trigger button",
    "#menu button[aria-label*=\"Action menu\"]",
    "button[aria-label*=\"Action menu\"]"]),
  ("ytd-video-renderer", [
    "button[aria-label*=\"More actions\"]",
    "ytd-menu-renderer button",
    "#menu button",
    "yt-icon-button button[aria-label*=\"More\"]",
    ".ytd-menu-renderer button"]),
  ("ytd-grid-video-renderer", [
    "ytd-menu-renderer button",
    "button[aria-label*=\"More actions\"]",
    "#menu button",
    "yt-icon-button button"]),
  ("ytd-rich-item-renderer", [
    "ytd-menu-renderer button",
    "button[aria-label*=\"More actions\"]",
    "yt-icon-button button"]),
  ("ytd-playlist-video-renderer", [
    "ytd-menu-renderer button",
    "button[aria-label*=\"More actions\"]",
    "#menu button"])]

/-- `UNIVERSAL_MENU_SELECTORS` of the automation-config module. -/
def universalMenuSelectors : List String := [
  "button[aria-label*=\"More actions\"]",
  "button[aria-label*=\"Action menu\"]",
  "ytd-menu-renderer button",
  "yt-icon-button button",
  "#menu button",
  ".ytd-menu-renderer button",
  "[aria-label*=\"More actions\"] button",
  "button[aria-haspopup=\"true\"]",
  "[role=\"button\"][aria-label*=\"More\"]",
  "[role=\"button\"][aria-label*=\"Action\"]"]

/-- `[...new Set(l)]`: de-duplication keeping the first occurrence of each
element, in order. -/
def dedupAux : List String → List String → List String
  | [], _ => []
  | x :: xs, seen =>
    if seen.contains x then dedupAux xs seen else x :: dedupAux xs (x :: seen)

def dedupFirst (l : List String) : List String := dedupAux l []

/-- `button.querySelector('svg')` is non-null. -/
def hasSvgInside (doc : Doc) (b : ℕ) : Bool :=
  (List.range doc.elems.length).any fun i =>
    isDescOf doc i b && lowerStr (tagOf doc i) == "svg"

/-- part_001 `isValidMenuButton`: visibility via `offsetParent`, disabled
checks, then a menu-indicating label/attribute/class or a three-dot icon
marker in the innerHTML. -/
def isValidMenuButton (doc : Doc) (ob : Option ℕ) : Bool :=
  match ob with
  | none => false
  | some b =>
    match elemAt doc b with
    | none => false
    | some e =>
      if e.offsetParentNull then false
      else if e.disabled then false
      else if e.attrs.lookup "aria-disabled" == some "true" then false
      else
        let ariaLabel := (e.attrs.lookup "aria-label").getD ""
        let ariaHaspopup := e.attrs.lookup "aria-haspopup"
        let className := (e.attrs.lookup "class").getD ""
        let isMenuButton :=
          strContains (lowerStr ariaLabel) "more" ||
          strContains (lowerStr ariaLabel) "action" ||
          strContains (lowerStr ariaLabel) "menu" ||
          ariaHaspopup == some "true" ||
          strContains className "dropdown" ||
          strContains className "menu"
        let hasThreeDotIcon :=
          hasSvgInside doc b &&
          (strContains e.innerHTML "M12 16.5" ||
           strContains e.innerHTML "more_vert" ||
           strContains e.innerHTML "more_horiz")
        isMenuButton || hasThreeDotIcon

/-- The selector loop of `findVideoMenuButton` (lines 225-237): for each
selector, query inside the container (an invalid selector is caught and
skipped) and return the first match passing `isValidMenuButton`. -/
def firstValidMenuButton (doc : Doc) (selectors : List String) (c : ℕ) : Option ℕ :=
  match selectors with
  | [] => none
  | sel :: rest =>
    match querySelectorAll doc c sel with
    | none => firstValidMenuButton doc rest c
    | some btns =>
      match btns.find? (fun b => isValidMenuButton doc (some b)) with
      | some b => some b
      | none => firstValidMenuButton doc rest c

/-- part_001 `findMenuButtonBroadSearch`: all button-like elements, then
`yt-icon-button` wrappers with a valid inner button. -/
def findMenuButtonBroadSearch (doc : Doc) (c : ℕ) : Option ℕ :=
  match ((querySelectorAll doc c "button, [role=\"button\"]").getD []).find?
          (fun b => isValidMenuButton doc (some b)) with
  | some b => some b
  | none =>
    ((querySelectorAll doc c "yt-icon-button").getD []).findSome? fun ib =>
      match ((querySelectorAll doc ib "button").getD []).head? with
      | some inner => if isValidMenuButton doc (some inner) then some inner else none
      | none => none

/-- part_001 `findVideoMenuButton`: container-type-specific selectors
(looked up by lower-cased tag name), then the universal fallback selectors,
de-duplicated; on total failure the broad search. -/
def findVideoMenuButton (doc : Doc) (c : ℕ) : Option ℕ :=
  let containerType := lowerStr (tagOf doc c)
  let containerSelectors := (menuSelectorsByType.lookup containerType).getD []
  let allSelectors := containerSelectors ++ universalMenuSelectors
  let uniqueSelectors := dedupFirst allSelectors
  match firstValidMenuButton doc uniqueSelectors c with
  | some b => some b
  | none => findMenuButtonBroadSearch doc c

/-! ## Concrete documents for the scenario claims and witnesses -/

/-- The default effective config: `waitForElement(sel, {})` with the
configuration module loaded. -/
def defaultWaitConfig : WaitConfig := effectiveWaitConfig {} automationTimeouts

/-- A page with a single visible button (waiter witnesses). -/
def waiterDoc : Doc where
  elems := [{ tag := "body" }, { tag := "button", attrs := [("id", "go")] }]
  parents := [none, some 0]

/-- The synthetic page of the C6 scenario:
`body > ytd-video-renderer > a[href="...watch?v=ABC123"]`. -/
def videoDoc : Doc where
  elems := [
    { tag := "body" },
    { tag := "ytd-video-renderer" },
    { tag := "a", attrs := [("href", "https://www.youtube.com/watch?v=ABC123")] }]
  parents := [none, some 0, some 1]

/-- The C7 scenario: a compact-video-renderer container holding only a bare
visible enabled button labelled "More actions" (which matches none of the
container-specific selectors for that type, but matches the first universal
fallback selector). -/
def menuDoc : Doc where
  elems := [
    { tag := "body" },
    { tag := "ytd-compact-video-renderer" },
    { tag := "button", attrs := [("aria-label", "More actions")] }]
  parents := [none, some 0, some 1]

/-- Wraps a single element as a whole document (for per-element claims). -/
def docOf (e : DElem) : Doc := { elems := [e], parents := [none] }

/-- A perfectly visible but disabled button. -/
def disabledVisibleButton : DElem := { tag := "button", disabled := true }

/-! ## Sequencer characterization (claim C1) -/

/-- The attempted-steps trace and outcome of `executeSequence`, computed
from the first aborting step. -/
theorem executeSequence_eq (steps : List SeqStep) :
    executeSequence steps =
      match steps.dropWhile (fun st => !stepAborts st) with
      | [] => (steps.map SeqStep.name, SeqOutcome.success)
      | st :: _ =>
          ((steps.takeWhile (fun st => !stepAborts st)).map SeqStep.name ++ [st.name],
           SeqOutcome.failure (wrapStepError st)) := by
  induction steps with
  | nil => rfl
  | cons st rest ih =>
    cases hA : stepAborts st with
    | true =>
      have hout : st.outcome.isSome = true := by
        have := hA
        unfold stepAborts at this
        exact (Bool.and_eq_true _ _ |>.mp this).1
      obtain ⟨m, hm⟩ := Option.isSome_iff_exists.mp hout
      have hreq : stepRequired st = true := by
        have := hA
        unfold stepAborts at this
        exact (Bool.and_eq_true _ _ |>.mp this).2
      simp [executeSequence, hm, hreq, List.dropWhile_cons, List.takeWhile_cons, hA]
    | false =>
      have hstep : executeSequence (st :: rest) =
          (st.name :: (executeSequence rest).1, (executeSequence rest).2) := by
        cases ho : st.outcome with
        | none => simp only [executeSequence, ho]
        | some m =>
          have hreq : stepRequired st = false := by
            have := hA
            unfold stepAborts at this
            simpa [ho] using this
          simp only [executeSequence, ho, hreq]
          simp
      rw [hstep, ih]
      simp only [List.dropWhile_cons, List.takeWhile_cons, hA]
      cases rest.dropWhile (fun st => !stepAborts st) <;> simp

/-- Claim C1: `executeSequence` halts at the first failing step whose
`required` is not `false`, attempting exactly the steps up to and including
it and propagating the wrapped error naming the step and the cause; a
failing step with `required === false` is skipped with all remaining steps
still attempted; the promise resolves `true` exactly when the loop
completes without an aborting error. -/
theorem executeSequence_required_semantics (steps : List SeqStep) :
    (executeSequence steps =
      match steps.dropWhile (fun st => !stepAborts st) with
      | [] => (steps.map SeqStep.name, SeqOutcome.success)
      | st :: _ =>
          ((steps.takeWhile (fun st => !stepAborts st)).map SeqStep.name ++ [st.name],
           SeqOutcome.failure (wrapStepError st)))
  ∧ ((executeSequence steps).2 = SeqOutcome.success ↔
      ∀ st ∈ steps, stepAborts st = false) := by
  refine ⟨executeSequence_eq steps, ?_⟩
  rw [executeSequence_eq steps]
  cases hd : steps.dropWhile (fun st => !stepAborts st) with
  | nil =>
    simp only [List.dropWhile_eq_nil_iff] at hd
    simpa using hd
  | cons st tl =>
    have hmem : st ∈ steps := by
      have : st ∈ steps.dropWhile (fun st => !stepAborts st) := by
        rw [hd]; exact List.mem_cons_self st tl
      exact (List.dropWhile_sublist _).subset this
    have hab : stepAborts st = true := by
      have := List.head?_dropWhile_not (fun st => !stepAborts st) steps
      rw [hd] at this
      simpa using this
    constructor
    · intro h; exact absurd h (by simp)
    · intro h
      exact absurd (h st hmem) (by simp [hab])

/-! ## Locator characterization (claims C2, C8) -/

/-- `findBestElement` equals the first validated element of the flattened
candidate stream. -/
theorem findBestElement_eq_find (doc : Doc) (selectors : List String) (cfg : WaitConfig) :
    findBestElement doc selectors cfg =
      (candidateStream doc selectors).find? (fun i => validateElement doc (some i) cfg) := by
  induction selectors with
  | nil => simp [findBestElement, candidateStream]
  | cons sel rest ih =>
    have hstream : candidateStream doc (sel :: rest) =
        (querySelectorAll doc 0 sel).getD [] ++ candidateStream doc rest := by
      simp [candidateStream]
    rw [hstream]
    rw [List.find?_append]
    cases hq : querySelectorAll doc 0 sel with
    | none => simp [findBestElement, hq, ih]
    | some els =>
      cases hf : els.find? (fun i => validateElement doc (some i) cfg) with
      | none => simp [findBestElement, hq, hf, ih]
      | some i => simp [findBestElement, hq, hf]

/-- `validateElement` decomposed into the three requested checks. -/
theorem validateElement_decompose (doc : Doc) (i : ℕ) (cfg : WaitConfig) :
    validateElement doc (some i) cfg =
      match elemAt doc i with
      | none => false
      | some e =>
          (!cfg.validateVisibility || visiblePass e) &&
          (!cfg.validateInteractable || interactPass e) &&
          textPass e cfg.textPattern := by
  cases he : elemAt doc i with
  | none => simp [validateElement, he]
  | some e =>
    cases ht : cfg.textPattern with
    | none =>
      simp only [validateElement, he, ht, visiblePass, interactPass, textPass]
      generalize cfg.validateVisibility = v
      generalize (e.width == 0 || e.height == 0 || e.display == "none" ||
                  e.visibility == "hidden" || e.opacity == "0") = d1
      generalize cfg.validateInteractable = w
      generalize (e.disabled || e.attrs.lookup "aria-disabled" == some "true") = d2
      cases v <;> cases d1 <;> cases w <;> cases d2 <;> simp
    | some pats =>
      simp only [validateElement, he, ht, visiblePass, interactPass, textPass]
      generalize cfg.validateVisibility = v
      generalize (e.width == 0 || e.height == 0 || e.display == "none" ||
                  e.visibility == "hidden" || e.opacity == "0") = d1
      generalize cfg.validateInteractable = w
      generalize (e.disabled || e.attrs.lookup "aria-disabled" == some "true") = d2
      generalize (pats.any fun p => strContains (lowerStr e.text) (lowerStr p)) = t
      cases v <;> cases d1 <;> cases w <;> cases d2 <;> cases t <;> simp

/-- Claim C2: `findBestElement` returns the first element, in selector-list
order then document order, passing `validateElement`; whatever it returns
passes every check the config requests; it is `none` exactly when the
candidate stream has no validated element. -/
theorem findBestElement_first_valid (doc : Doc) (selectors : List String) (cfg : WaitConfig) :
    (findBestElement doc selectors cfg =
      (candidateStream doc selectors).find? (fun i => validateElement doc (some i) cfg))
  ∧ ((findBestElement doc selectors cfg).all
      (fun i => validateElement doc (some i) cfg) = true)
  ∧ ((findBestElement doc selectors cfg).all
      (fun i =>
        match elemAt doc i with
        | none => false
        | some e =>
            (!cfg.validateVisibility || visiblePass e) &&
            (!cfg.validateInteractable || interactPass e) &&
            textPass e cfg.textPattern) = true) := by
  have h := findBestElement_eq_find doc selectors cfg
  have hall : (findBestElement doc selectors cfg).all
      (fun i => validateElement doc (some i) cfg) = true := by
    rw [h]
    cases hf : (candidateStream doc selectors).find?
        (fun i => validateElement doc (some i) cfg) with
    | none => rfl
    | some i => simpa [Option.all] using List.find?_some hf
  refine ⟨h, hall, ?_⟩
  cases hr : findBestElement doc selectors cfg with
  | none => rfl
  | some i =>
    rw [hr] at hall
    simp only [Option.all] at hall ⊢
    rw [← validateElement_decompose]
    exact hall

/-- Claim C8: a malformed selector is caught, logged and skipped: the
result over any selector list equals the result with that selector
removed, so a later valid selector still produces its match and the
function never throws. -/
theorem findBestElement_skips_malformed (doc : Doc) (cfg : WaitConfig)
    (pre post : List String) (s : String) (h : parseSelector s = none) :
    findBestElement doc (pre ++ s :: post) cfg = findBestElement doc (pre ++ post) cfg := by
  induction pre with
  | nil =>
    have hq : querySelectorAll doc 0 s = none := by
      unfold querySelectorAll
      rw [h]
      rfl
    simp [findBestElement, hq]
  | cons p rest ih =>
    simp only [List.cons_append]
    cases hq : querySelectorAll doc 0 p with
    | none => simp [findBestElement, hq, ih]
    | some els =>
      cases hf : els.find? (fun i => validateElement doc (some i) cfg) with
      | none => simp [findBestElement, hq, hf, ih]
      | some i => simp [findBestElement, hq, hf]

/-- Concrete instance of C8: `"button["` is malformed, is skipped, and the
later `"button"` selector still yields the match. -/
theorem findBestElement_skips_malformed_witness :
    parseSelector "button[" = none
  ∧ findBestElement waiterDoc ["nope", "button[", "button"] defaultWaitConfig =
      findBestElement waiterDoc ["nope", "button"] defaultWaitConfig
  ∧ findBestElement waiterDoc ["nope", "button"] defaultWaitConfig = some 1 :=
  ⟨by decide,
   findBestElement_skips_malformed waiterDoc defaultWaitConfig ["nope"] ["button"]
     "button[" (by decide),
   by decide⟩

/-- Claim C9 (amended): the effective `timeout` and `maxRetries` are taken
from `options` when given there as a nonzero value; an absent option - and
also an explicitly given `0`, since the defaulting uses JavaScript `||` -
falls back to the global configuration values 5000 ms and 3. -/
theorem effectiveWaitConfig_defaults (o : WaitOptions) :
    ((effectiveWaitConfig o automationTimeouts).timeout =
      match o.timeout with
      | some v => if v = 0 then 5000 else v
      | none => 5000)
  ∧ ((effectiveWaitConfig o automationTimeouts).maxRetries =
      match o.maxRetries with
      | some v => if v = 0 then 3 else v
      | none => 3) := by
  constructor
  · show jsOrQ o.timeout (jsOrQ (some 5000) 5000) = _
    cases o.timeout with
    | none => simp [jsOrQ]
    | some v => simp [jsOrQ]
  · show jsOrN o.maxRetries (jsOrN (some 3) 3) = _
    cases o.maxRetries with
    | none => simp [jsOrN]
    | some v => simp [jsOrN]

/-- Counterexample to C9 as stated: `options.maxRetries = 0` and
`options.timeout = 0` are given in `options`, yet the effective config does
not use them - the `||` defaulting replaces them with 3 and 5000. -/
theorem effectiveWaitConfig_zero_not_used :
    (effectiveWaitConfig { maxRetries := some 0 } automationTimeouts).maxRetries = 3
  ∧ (effectiveWaitConfig { timeout := some 0 } automationTimeouts).timeout = 5000
  ∧ (3 : ℕ) ≠ 0 ∧ (5000 : ℚ) ≠ 0 := by
  refine ⟨rfl, ?_, by decide, by norm_num⟩
  show jsOrQ (some 0) (jsOrQ (some 5000) 5000) = 5000
  norm_num [jsOrQ]

/-- Claim C10: the two validation flags default asymmetrically -
`validateVisibility` is on unless the option is exactly `false`
(`!== false`), while `validateInteractable` is on only for a truthy option
(`|| false`); consequently under default options `validateElement` is
exactly the visibility check, and a disabled but visible element passes. -/
theorem validate_flags_asymmetric (o : WaitOptions) (e : DElem) :
    ((effectiveWaitConfig o automationTimeouts).validateVisibility =
      !(o.validateVisibility == JSVal.boolv false))
  ∧ ((effectiveWaitConfig o automationTimeouts).validateInteractable =
      (o.validateInteractable).truthy)
  ∧ (validateElement (docOf e) (some 0) defaultWaitConfig = visiblePass e)
  ∧ (validateElement (docOf disabledVisibleButton) (some 0) defaultWaitConfig = true)
  ∧ (interactPass disabledVisibleButton = false) := by
  refine ⟨rfl, rfl, ?_, by decide, by decide⟩
  have he : elemAt (docOf e) 0 = some e := rfl
  have hdc : defaultWaitConfig = ⟨5000, true, false, 0, 3, none⟩ := by decide
  rw [validateElement_decompose, he, hdc]
  simp [textPass]

/-- Claim C5: when the locator already finds a valid element at call time,
`waitForElement` resolves immediately with that element - no pending
waiting state (timer, observer or poll) is ever created. -/
theorem waitForElement_immediate (doc : Doc) (selectors : List String)
    (cfg : WaitConfig) (e : ℕ) (h : findBestElement doc selectors cfg = some e) :
    waitAttemptStart doc selectors cfg = WaitStart.immediate e
  ∧ ∀ s, waitAttemptStart doc selectors cfg ≠ WaitStart.pending s := by
  unfold waitAttemptStart
  rw [h]
  exact ⟨rfl, fun s => by simp⟩

/-- Concrete instance of C5 on a page already containing the button. -/
theorem waitForElement_immediate_witness :
    findBestElement waiterDoc ["button"] defaultWaitConfig = some 1
  ∧ waitAttemptStart waiterDoc ["button"] defaultWaitConfig = WaitStart.immediate 1 :=
  ⟨by decide,
   (waitForElement_immediate waiterDoc ["button"] defaultWaitConfig 1 (by decide)).1⟩

/-! ## At-most-one settlement per attempt (claim C4) -/

/-- The invariant of one waiting attempt: at most one settling call has
happened, `resolved` records exactly whether one has, and once settled both
the timeout timer and the observer are torn down. -/
def waiterInv (s : WaiterState) : Prop :=
  s.settles ≤ 1 ∧ (s.resolved = true ↔ s.settles = 1) ∧
  (s.resolved = true → s.observerActive = false ∧ s.timeoutPending = false)

theorem waiterInv_init : waiterInv wInit := by
  refine ⟨by decide, by decide, by decide⟩

theorem waiterInv_step (s : WaiterState) (e : WEvent) (h : waiterInv s) :
    waiterInv (wStep s e) := by
  obtain ⟨h1, h2, h3⟩ := h
  cases e with
  | mutation found =>
    simp only [wStep]
    split_ifs with hObs hRes hFound
    · exact ⟨h1, h2, h3⟩
    · exact ⟨h1, h2, h3⟩
    · refine ⟨?_, ?_, ?_⟩ <;> simp_all <;> omega
    · exact ⟨h1, h2, h3⟩
  | pollTimer found =>
    simp only [wStep]
    split_ifs with hPoll hRes hFound
    · exact ⟨h1, h2, h3⟩
    · refine ⟨h1, ?_, ?_⟩ <;> simp_all
    · refine ⟨?_, ?_, ?_⟩ <;> simp_all <;> omega
    · exact ⟨h1, h2, h3⟩
  | timeoutTimer =>
    simp only [wStep]
    split_ifs with hTime hRes
    · exact ⟨h1, h2, h3⟩
    · refine ⟨h1, ?_, ?_⟩ <;> simp_all
    · refine ⟨?_, ?_, ?_⟩ <;> simp_all <;> omega

theorem waiterInv_run_from (events : List WEvent) :
    ∀ s, waiterInv s → waiterInv (events.foldl wStep s) := by
  induction events with
  | nil => intro s h; exact h
  | cons e rest ih => intro s h; exact ih _ (waiterInv_step s e h)

theorem waiterInv_run (events : List WEvent) : waiterInv (wRun events) :=
  waiterInv_run_from events wInit waiterInv_init

/-- After the attempt has settled, no further event settles again or
re-arms anything. -/
theorem wStep_after_resolved (s : WaiterState) (e : WEvent)
    (hres : s.resolved = true) (hobs : s.observerActive = false)
    (htime : s.timeoutPending = false) :
    (wStep s e).settles = s.settles
  ∧ (wStep s e).observerActive = false
  ∧ (wStep s e).timeoutPending = false
  ∧ ((wStep s e).pollPending = true → s.pollPending = true) := by
  cases e with
  | mutation found => simp [wStep, hobs, htime]
  | pollTimer found =>
    cases hp : s.pollPending with
    | false => simp [wStep, hp, hobs, htime]
    | true => simp [wStep, hp, hres, hobs, htime]
  | timeoutTimer => simp [wStep, htime, hobs]

/-- Claim C4: within one `waitForElement` attempt, across every event-loop
schedule at most one of the three mechanisms settles the promise; settling
happens exactly once `resolved` is set; whichever mechanism settles first
has cleared the timeout timer and disconnected the mutation observer, and
afterwards no event settles again or re-arms a timer or observer (a
still-pending poll tick fires once into the `resolved` guard and schedules
nothing new). -/
theorem waiter_at_most_one_settle (events : List WEvent) :
    (wRun events).settles ≤ 1
  ∧ ((wRun events).resolved = true ↔ (wRun events).settles = 1)
  ∧ ((wRun events).resolved = true →
      (wRun events).observerActive = false ∧ (wRun events).timeoutPending = false)
  ∧ (∀ e, (wRun events).resolved = true →
      (wStep (wRun events) e).settles = (wRun events).settles
      ∧ (wStep (wRun events) e).observerActive = false
      ∧ (wStep (wRun events) e).timeoutPending = false
      ∧ ((wStep (wRun events) e).pollPending = true →
          (wRun events).pollPending = true)) := by
  obtain ⟨h1, h2, h3⟩ := waiterInv_run events
  refine ⟨h1, h2, h3, ?_⟩
  intro e hres
  obtain ⟨hobs, htime⟩ := h3 hres
  exact wStep_after_resolved (wRun events) e hres hobs htime

/-- Concrete instance of C4: after a successful poll settles the attempt, a
late timeout-timer event changes nothing and settles nothing. -/
theorem waiter_at_most_one_settle_witness :
    (wRun [WEvent.pollTimer true]).settles ≤ 1
  ∧ (wRun [WEvent.pollTimer true]).observerActive = false
  ∧ (wStep (wRun [WEvent.pollTimer true]) WEvent.timeoutTimer).settles =
      (wRun [WEvent.pollTimer true]).settles :=
  ⟨(waiter_at_most_one_settle [WEvent.pollTimer true]).1,
   ((waiter_at_most_one_settle [WEvent.pollTimer true]).2.2.1 (by decide)).1,
   ((waiter_at_most_one_settle [WEvent.pollTimer true]).2.2.2 WEvent.timeoutTimer
      (by decide)).1⟩

/-! ## Retry-chain characterization (claim C3) -/

theorem failChainAux_spec (selectors : List String) (m : ℕ) :
    ∀ fuel rc t, m - rc < fuel →
      failChainAux selectors m fuel rc t =
        ((List.range (m - rc + 1)).map (fun k => (rc + k, nextTimeout^[k] t)),
         "Element not found after " ++ toString m ++ " attempts: " ++
           joinSelectors selectors) := by
  intro fuel
  induction fuel with
  | zero => intro rc t h; exact absurd h (Nat.not_lt_zero _)
  | succ fuel ih =>
    intro rc t h
    by_cases hlt : rc < m
    · have h1 : m - (rc + 1) < fuel := by omega
      simp only [failChainAux, if_pos hlt]
      rw [ih (rc + 1) (nextTimeout t) h1]
      simp only [Prod.mk.injEq]
      refine ⟨?_, trivial⟩
      have hfun : ((fun k => (rc + k, nextTimeout^[k] t)) ∘ Nat.succ) =
          (fun k => (rc + 1 + k, nextTimeout^[k] (nextTimeout t))) := by
        funext k
        simp only [Function.comp_apply, Prod.mk.injEq]
        exact ⟨by omega, by rw [← Function.iterate_succ_apply]⟩
      have hrw : m - rc + 1 = (m - (rc + 1) + 1) + 1 := by omega
      rw [hrw]
      conv_rhs => rw [List.range_succ_eq_map, List.map_cons, List.map_map, hfun]
      simp
    · simp only [failChainAux, if_neg hlt]
      have h0 : m - rc = 0 := by omega
      rw [h0]
      simp [List.range_succ]

/-- Claim C3 (amended): when no valid element ever appears, the retry chain
starting at `retryCount = 0` makes exactly `maxRetries + 1` attempts, the
k-th attempt carrying `retryCount = k` and timeout
`min(previous * 1.5, 10000)` iterated k times; the rejection message names
the selectors tried and the `maxRetries` value - which is one less than the
number of attempts actually made. -/
theorem waitFailChain_spec (selectors : List String) (maxRetries : ℕ) (t : ℚ) :
    ((waitFailChain selectors maxRetries t).1 =
      (List.range (maxRetries + 1)).map (fun k => (k, nextTimeout^[k] t)))
  ∧ ((waitFailChain selectors maxRetries t).1.length = maxRetries + 1)
  ∧ ((waitFailChain selectors maxRetries t).2 =
      "Element not found after " ++ toString maxRetries ++ " attempts: " ++
        joinSelectors selectors) := by
  have h := failChainAux_spec selectors maxRetries (maxRetries + 1) 0 t (by omega)
  unfold waitFailChain
  rw [h]
  refine ⟨by simp, by simp, rfl⟩

/-- Counterexample to C3 as stated: with `maxRetries = 3` (the default) the
chain makes 4 attempts, but the rejection message reads "after 3 attempts"
- the number it names is not the number of attempts made (no "4" occurs in
the message at all). -/
theorem waitFailChain_msg_mismatch :
    (waitFailChain ["#submit"] 3 5000).1.length = 4
  ∧ ((waitFailChain ["#submit"] 3 5000).2 =
      "Element not found after 3 attempts: #submit")
  ∧ strContains (waitFailChain ["#submit"] 3 5000).2 "4" = false := by decide

/-! ## De-duplication and menu search (claim C7) -/

theorem mem_dedupAux (l : List String) :
    ∀ seen x, x ∈ dedupAux l seen ↔ (x ∈ l ∧ x ∉ seen) := by
  induction l with
  | nil => intro seen x; simp [dedupAux]
  | cons a rest ih =>
    intro seen x
    by_cases ha : a ∈ seen
    · have hc : List.contains seen a = true := by simpa using ha
      simp only [dedupAux, hc, if_true]
      rw [ih seen x]
      simp only [List.mem_cons]
      constructor
      · rintro ⟨hx, hns⟩
        exact ⟨Or.inr hx, hns⟩
      · rintro ⟨hx | hx, hns⟩
        · subst hx; exact absurd ha hns
        · exact ⟨hx, hns⟩
    · have hc : List.contains seen a = false := by simpa using ha
      simp only [dedupAux, hc, Bool.false_eq_true, if_false]
      rw [List.mem_cons, ih (a :: seen) x]
      simp only [List.mem_cons]
      constructor
      · rintro (rfl | ⟨hx, hns⟩)
        · exact ⟨Or.inl rfl, ha⟩
        · exact ⟨Or.inr hx, fun h => hns (Or.inr h)⟩
      · rintro ⟨hx | hx, hns⟩
        · exact Or.inl hx
        · by_cases hxa : x = a
          · exact Or.inl hxa
          · refine Or.inr ⟨hx, ?_⟩
            rintro (h1 | h2)
            · exact hxa h1
            · exact hns h2

theorem dedupAux_sublist (l : List String) : ∀ seen, (dedupAux l seen).Sublist l := by
  induction l with
  | nil => intro seen; simp [dedupAux]
  | cons a rest ih =>
    intro seen
    by_cases hc : List.contains seen a = true
    · simp only [dedupAux, hc, if_true]
      exact (ih seen).cons a
    · simp only [dedupAux, eq_false_of_ne_true hc, Bool.false_eq_true, if_false]
      exact (ih (a :: seen)).cons₂ a

theorem dedupAux_nodup (l : List String) : ∀ seen, (dedupAux l seen).Nodup := by
  induction l with
  | nil => intro seen; simp [dedupAux]
  | cons a rest ih =>
    intro seen
    by_cases hc : List.contains seen a = true
    · simp only [dedupAux, hc, if_true]
      exact ih seen
    · simp only [dedupAux, eq_false_of_ne_true hc, Bool.false_eq_true, if_false]
      rw [List.nodup_cons]
      refine ⟨?_, ih _⟩
      intro hmem
      rw [mem_dedupAux] at hmem
      exact hmem.2 (List.mem_cons_self a seen)

/-- Claim C6: `findVideoElementById` runs its three strategies in order and
returns the first success (`runStrategies` skips a throwing or empty-handed
strategy and stops at the first success); on the synthetic page with a
`ytd-video-renderer` holding an anchor whose href contains `watch?v=ABC123`
it returns that container for `"ABC123"` and `none` for `"ZZZ999"`. -/
theorem findVideoElementById_spec :
    (∀ doc videoId, findVideoElementById doc videoId =
      (match videoStrategy1 doc videoId with
       | some e => some e
       | none =>
         match videoStrategy2 doc videoId with
         | some e => some e
         | none => videoStrategy3 doc videoId))
  ∧ (∀ (msg : String) rest, runStrategies (Except.error msg :: rest) = runStrategies rest)
  ∧ (∀ (e : ℕ) rest, runStrategies (Except.ok (some e) :: rest) = some e)
  ∧ (∀ rest, runStrategies (Except.ok none :: rest) = runStrategies rest)
  ∧ findVideoElementById videoDoc "ABC123" = some 1
  ∧ findVideoElementById videoDoc "ZZZ999" = none := by
  refine ⟨?_, fun msg rest => rfl, fun e rest => rfl, fun rest => rfl, by decide, by decide⟩
  intro doc vid
  cases h1 : videoStrategy1 doc vid with
  | some e => simp [findVideoElementById, runStrategies, h1]
  | none =>
    cases h2 : videoStrategy2 doc vid with
    | some e => simp [findVideoElementById, runStrategies, h1, h2]
    | none =>
      simp only [findVideoElementById, runStrategies, h1, h2]
      cases videoStrategy3 doc vid <;> rfl

/-- Claim C7: `findVideoMenuButton` builds its candidate list as the
container-type-specific selectors followed by the universal fallback
selectors, de-duplicated preserving first occurrences (the de-duplication
is duplicate-free, order-preserving and loses no selector), scans it for
the first element passing `isValidMenuButton`, and falls back to the broad
search; in the scenario document the bare `aria-label="More actions"`
button defeats every container-specific selector of
`ytd-compact-video-renderer` yet is found through the universal list. -/
theorem findVideoMenuButton_spec :
    (∀ l : List String,
      (dedupFirst l).Nodup ∧ (dedupFirst l).Sublist l ∧ ∀ x, x ∈ dedupFirst l ↔ x ∈ l)
  ∧ (∀ doc c, findVideoMenuButton doc c =
      (match firstValidMenuButton doc
          (dedupFirst
            (((menuSelectorsByType.lookup (lowerStr (tagOf doc c))).getD []) ++
              universalMenuSelectors)) c with
       | some b => some b
       | none => findMenuButtonBroadSearch doc c))
  ∧ firstValidMenuButton menuDoc
      ((menuSelectorsByType.lookup "ytd-compact-video-renderer").getD []) 1 = none
  ∧ firstValidMenuButton menuDoc universalMenuSelectors 1 = some 2
  ∧ findVideoMenuButton menuDoc 1 = some 2
  ∧ isValidMenuButton menuDoc (some 2) = true := by
  refine ⟨?_, fun doc c => rfl, by decide, by decide, by decide, by decide⟩
  intro l
  refine ⟨dedupAux_nodup l [], dedupAux_sublist l [], fun x => ?_⟩
  rw [dedupFirst, mem_dedupAux]
  simp
